import Mathlib

/-!
Verification of the flux-studio file-based agent communication protocol
(`src/flux_studio/agents/`): the protocol codec (`agent_protocol.py`),
the storage primitives (`file_comm.py`) and the registry
(`agent_registry.py`).

JSON documents are modelled by the inductive `Json` (null / bool /
integer / string / array / object as an ordered key-value list, matching
the "tagged union" payload model).  Python `None` is `Json.null`;
a Python exception escaping a function is modelled by `Except PyErr`.
-/

/-- A JSON-representable value.  Objects are ordered association lists;
numbers are modelled as integers (no claim here depends on non-integer
numerics). -/
inductive Json where
  | null : Json
  | bool : Bool → Json
  | num : Int → Json
  | str : String → Json
  | arr : List Json → Json
  | obj : List (String × Json) → Json

/-- A Python exception escaping a decoder: `KeyError` from `data["k"]`,
`ValueError` from an enum constructor on an unknown tag, `TypeError`
from using a wrongly-typed value. -/
inductive PyErr where
  | keyError : String → PyErr
  | valueError : PyErr
  | typeError : PyErr
deriving DecidableEq

/-- Python truthiness (`if data:`) of a JSON value: `None`, `False`,
`0`, `""`, `[]` and `{}` are falsy. -/
def pyTruthy : Json → Bool
  | Json.null => false
  | Json.bool b => b
  | Json.num n => n != 0
  | Json.str s => s != ""
  | Json.arr xs => !xs.isEmpty
  | Json.obj kvs => !kvs.isEmpty

/-- `TaskStatus` enum from `agent_protocol.py`. -/
inductive TaskStatus where
  | pending | running | completed | failed | cancelled
deriving DecidableEq

/-- The wire tag of a status (`TaskStatus.value`). -/
def TaskStatus.value : TaskStatus → String
  | .pending => "pending"
  | .running => "running"
  | .completed => "completed"
  | .failed => "failed"
  | .cancelled => "cancelled"

/-- `TaskStatus(tag)`: Python enum lookup by value, `ValueError` on an
unrecognized tag, `ValueError` as well on a non-string argument. -/
def TaskStatus.parse : Json → Except PyErr TaskStatus
  | Json.str "pending" => .ok .pending
  | Json.str "running" => .ok .running
  | Json.str "completed" => .ok .completed
  | Json.str "failed" => .ok .failed
  | Json.str "cancelled" => .ok .cancelled
  | _ => .error .valueError

/-- `MessageType` enum from `agent_protocol.py`. -/
inductive MessageType where
  | request | response | status | error | comment | notification
deriving DecidableEq

/-- The wire tag of a message type (`MessageType.value`). -/
def MessageType.value : MessageType → String
  | .request => "request"
  | .response => "response"
  | .status => "status"
  | .error => "error"
  | .comment => "comment"
  | .notification => "notification"

/-- `MessageType(tag)`: enum lookup by value, `ValueError` otherwise. -/
def MessageType.parse : Json → Except PyErr MessageType
  | Json.str "request" => .ok .request
  | Json.str "response" => .ok .response
  | Json.str "status" => .ok .status
  | Json.str "error" => .ok .error
  | Json.str "comment" => .ok .comment
  | Json.str "notification" => .ok .notification
  | _ => .error .valueError

/-- Terminal statuses (`COMPLETED`, `FAILED`, `CANCELLED`). -/
def TaskStatus.isTerminal : TaskStatus → Bool
  | .completed => true
  | .failed => true
  | .cancelled => true
  | _ => false

/-- The `AgentTask` dataclass, fields typed as declared in
`agent_protocol.py` (`result`, `context` are opaque JSON payloads;
nullable timestamp strings are `Option String`). -/
structure AgentTask where
  id : String
  description : String
  context : Json
  status : TaskStatus
  result : Json
  error : Option String
  created_at : String
  started_at : Option String
  completed_at : Option String
  assigned_to : Option String

/-- The `AgentMessage` dataclass. -/
structure AgentMessage where
  id : String
  type : MessageType
  sender : String
  recipient : String
  content : String
  timestamp : String
  in_reply_to : Option String
  metadata : Json

/-- A nullable string field on the wire (`None` serializes as JSON null). -/
def optStr : Option String → Json
  | none => Json.null
  | some s => Json.str s

/-- `d.get(k)` / `d[k]` on a Python dict: first binding of the key. -/
def jget (d : List (String × Json)) (k : String) : Option Json :=
  d.lookup k

/-- Read a field Python would store verbatim into a `str` slot
(the dataclass declares `str`; registry-written documents always put a
string here). -/
def asStr : Json → Except PyErr String
  | Json.str s => .ok s
  | _ => .error .typeError

/-- Read a field Python would store verbatim into a `str | None` slot. -/
def asOptStr : Json → Except PyErr (Option String)
  | Json.null => .ok none
  | Json.str s => .ok (some s)
  | _ => .error .typeError

/-- Protocol version literal. -/
def PROTOCOL_VERSION : String := "1.0.0"

/-- `AgentTask.to_dict`. -/
def AgentTask.to_dict (t : AgentTask) : Json :=
  Json.obj
    [ ("protocol_version", Json.str PROTOCOL_VERSION),
      ("id", Json.str t.id),
      ("description", Json.str t.description),
      ("context", t.context),
      ("status", Json.str t.status.value),
      ("result", t.result),
      ("error", optStr t.error),
      ("created_at", Json.str t.created_at),
      ("started_at", optStr t.started_at),
      ("completed_at", optStr t.completed_at),
      ("assigned_to", optStr t.assigned_to) ]

/-- `AgentTask.from_dict`.  `data["id"]` raises `KeyError` when absent;
`TaskStatus(...)` raises `ValueError` on an unknown tag; missing
optional keys take the documented defaults; `context`/`result` are kept
opaque.  Applying it to a non-object raises (`TypeError`, as indexing a
non-dict would). -/
def AgentTask.from_dict : Json → Except PyErr AgentTask
  | Json.obj d => do
    let idj ← match jget d "id" with
      | none => Except.error (PyErr.keyError "id")
      | some v => Except.ok v
    let id ← asStr idj
    let description ← asStr ((jget d "description").getD (Json.str ""))
    let context := (jget d "context").getD (Json.obj [])
    let status ← TaskStatus.parse ((jget d "status").getD (Json.str "pending"))
    let result := (jget d "result").getD Json.null
    let error ← asOptStr ((jget d "error").getD Json.null)
    let created_at ← asStr ((jget d "created_at").getD (Json.str ""))
    let started_at ← asOptStr ((jget d "started_at").getD Json.null)
    let completed_at ← asOptStr ((jget d "completed_at").getD Json.null)
    let assigned_to ← asOptStr ((jget d "assigned_to").getD Json.null)
    Except.ok { id := id, description := description, context := context,
                status := status, result := result, error := error,
                created_at := created_at, started_at := started_at,
                completed_at := completed_at, assigned_to := assigned_to }
  | _ => .error .typeError

/-- `AgentMessage.to_dict`. -/
def AgentMessage.to_dict (m : AgentMessage) : Json :=
  Json.obj
    [ ("protocol_version", Json.str PROTOCOL_VERSION),
      ("id", Json.str m.id),
      ("type", Json.str m.type.value),
      ("sender", Json.str m.sender),
      ("recipient", Json.str m.recipient),
      ("content", Json.str m.content),
      ("timestamp", Json.str m.timestamp),
      ("in_reply_to", optStr m.in_reply_to),
      ("metadata", m.metadata) ]

/-- `AgentMessage.from_dict`.  `data["id"]` and `data["type"]` raise
`KeyError` when absent; `MessageType(...)` raises `ValueError` on an
unknown tag. -/
def AgentMessage.from_dict : Json → Except PyErr AgentMessage
  | Json.obj d => do
    let idj ← match jget d "id" with
      | none => Except.error (PyErr.keyError "id")
      | some v => Except.ok v
    let id ← asStr idj
    let tyj ← match jget d "type" with
      | none => Except.error (PyErr.keyError "type")
      | some v => Except.ok v
    let type ← MessageType.parse tyj
    let sender ← asStr ((jget d "sender").getD (Json.str "unknown"))
    let recipient ← asStr ((jget d "recipient").getD (Json.str "flux-studio"))
    let content ← asStr ((jget d "content").getD (Json.str ""))
    let timestamp ← asStr ((jget d "timestamp").getD (Json.str ""))
    let in_reply_to ← asOptStr ((jget d "in_reply_to").getD Json.null)
    let metadata := (jget d "metadata").getD (Json.obj [])
    Except.ok { id := id, type := type, sender := sender,
                recipient := recipient, content := content,
                timestamp := timestamp, in_reply_to := in_reply_to,
                metadata := metadata }
  | _ => .error .typeError

@[simp]
theorem TaskStatus.parse_value_roundtrip (s : TaskStatus) :
    TaskStatus.parse (Json.str s.value) = Except.ok s := by
  cases s <;> rfl

@[simp]
theorem MessageType.parse_tag_roundtrip (m : MessageType) :
    MessageType.parse (Json.str m.value) = Except.ok m := by
  cases m <;> rfl

@[simp]
theorem asOptStr_optStr (o : Option String) : asOptStr (optStr o) = Except.ok o := by
  cases o <;> rfl

@[simp]
theorem asStr_str (s : String) : asStr (Json.str s) = Except.ok s := rfl

/-- C2: decoding the encoding of any Task or Message value restores it
field-for-field: `AgentTask.from_dict (AgentTask.to_dict t)` succeeds
with exactly `t`, and likewise for `AgentMessage`, for every status or
type enum value, optional fields null or present, and arbitrary
JSON-representable `context`/`result`/`metadata` payloads. -/
theorem C2_task_message_roundtrip :
    (∀ t : AgentTask, AgentTask.from_dict (AgentTask.to_dict t) = Except.ok t) ∧
    (∀ m : AgentMessage, AgentMessage.from_dict (AgentMessage.to_dict m) = Except.ok m) := by
  constructor
  · intro t
    simp [AgentTask.from_dict, AgentTask.to_dict, jget, List.lookup, PROTOCOL_VERSION]
    rfl
  · intro m
    obtain ⟨i, ty, s, r, c, ts, irt, md⟩ := m
    cases ty <;>
      (simp [AgentMessage.from_dict, AgentMessage.to_dict, jget, List.lookup, PROTOCOL_VERSION]
       rfl)

/-!
Storage read layer (`file_comm.py` / directory scans in
`agent_registry.py`).  A file on disk either holds text that fails
`json.loads` (`invalid`) or a parsed JSON document (`valid j`); a
possibly-missing file is an `Option FileContent`.  A directory scan
operates on the sorted `*.json` listing, modelled as the list of the
listed files' contents in listing order.
-/

/-- Contents of one on-disk file: unparsable text, or a JSON document. -/
inductive FileContent where
  | invalid : FileContent
  | valid : Json → FileContent

/-- `FileComm.read_json` / `read_json_sync`: `None` when the file does
not exist; `None` when the contents fail to parse
(`json.JSONDecodeError` is caught); the parsed document otherwise. -/
def read_json : Option FileContent → Option Json
  | none => none
  | some FileContent.invalid => none
  | some (FileContent.valid j) => some j

/-- `AgentRegistry.get_task`: read the task file, return `None` if the
document is absent or falsy, else decode it (the decoder may raise). -/
def get_task_file (f : Option FileContent) : Except PyErr (Option AgentTask) :=
  match read_json f with
  | none => Except.ok none
  | some j =>
    if pyTruthy j then (AgentTask.from_dict j).map some else Except.ok none

/-- `AgentRegistry.get_tasks`: scan the listed task files in order,
skip absent/falsy documents, decode the rest (a decoder exception
propagates), keep tasks matching the optional status filter. -/
def get_tasks (filter : Option TaskStatus) : List FileContent → Except PyErr (List AgentTask)
  | [] => Except.ok []
  | f :: rest =>
    match read_json (some f) with
    | none => get_tasks filter rest
    | some j =>
      if pyTruthy j then
        match AgentTask.from_dict j with
        | Except.error e => Except.error e
        | Except.ok t =>
          match get_tasks filter rest with
          | Except.error e => Except.error e
          | Except.ok ts =>
            Except.ok (if filter = none ∨ filter = some t.status then t :: ts else ts)
      else get_tasks filter rest

/-- `AgentRegistry.get_inbox_messages` / `get_outbox_messages`: scan the
listed message files in order, skip absent/falsy documents, decode the
rest (a decoder exception propagates). -/
def get_messages : List FileContent → Except PyErr (List AgentMessage)
  | [] => Except.ok []
  | f :: rest =>
    match read_json (some f) with
    | none => get_messages rest
    | some j =>
      if pyTruthy j then
        match AgentMessage.from_dict j with
        | Except.error e => Except.error e
        | Except.ok m =>
          match get_messages rest with
          | Except.error e => Except.error e
          | Except.ok ms => Except.ok (m :: ms)
      else get_messages rest

/-- A document that the read layer degrades to absence: the file's text
fails to parse as JSON, or it parses to a Python-falsy value (such as
the empty object), so `if data:` skips it. -/
def degradesToAbsent (f : FileContent) : Bool :=
  match read_json (some f) with
  | none => true
  | some j => !pyTruthy j

/-- C1 (counterexample): a persisted task document that is well-formed
JSON but misses the required `"id"` field is not excluded from
`get_tasks` — the scan propagates a `KeyError` instead of skipping the
file, refuting "reading it through the registry degrades to absence
without raising". -/
theorem C1_counterexample :
    get_tasks none [FileContent.valid (Json.obj [("status", Json.str "pending")])] =
      Except.error (PyErr.keyError "id") := rfl

/-- C1 (amended): only documents whose text fails JSON parsing, or that
parse to a Python-falsy value, degrade to absence: for such a file,
`get_task` returns the absent value and `get_tasks` /
`get_inbox_messages` / `get_outbox_messages` behave as if the file were
not in the directory; a truthy JSON document missing a required field
or carrying an unrecognized enum tag instead raises out of these
operations. -/
theorem C1_malformed_degrades_to_absence (pre post : List FileContent)
    (f : FileContent) (hf : degradesToAbsent f = true) :
    get_task_file (some f) = Except.ok none ∧
    get_tasks none (pre ++ f :: post) = get_tasks none (pre ++ post) ∧
    get_messages (pre ++ f :: post) = get_messages (pre ++ post) := by
  refine ⟨?_, ?_, ?_⟩
  · cases f with
    | invalid => rfl
    | valid j =>
      simp only [degradesToAbsent, read_json, Bool.not_eq_true'] at hf
      simp [get_task_file, read_json, hf]
  · induction pre with
    | nil =>
      cases f with
      | invalid => simp [get_tasks, read_json]
      | valid j =>
        simp only [degradesToAbsent, read_json, Bool.not_eq_true'] at hf
        simp [get_tasks, read_json, hf]
    | cons p pre ih =>
      cases p with
      | invalid => simpa [get_tasks, read_json] using ih
      | valid j =>
        simp only [List.cons_append, get_tasks, read_json, List.append_eq]
        rw [ih]
  · induction pre with
    | nil =>
      cases f with
      | invalid => simp [get_messages, read_json]
      | valid j =>
        simp only [degradesToAbsent, read_json, Bool.not_eq_true'] at hf
        simp [get_messages, read_json, hf]
    | cons p pre ih =>
      cases p with
      | invalid => simpa [get_messages, read_json] using ih
      | valid j =>
        simp only [List.cons_append, get_messages, read_json, List.append_eq]
        rw [ih]

/-- C1 witness: a corrupt (non-JSON) file concretely degrades to
absence for `get_task`, `get_tasks` and the message scans. -/
theorem C1_witness :
    get_task_file (some FileContent.invalid) = Except.ok none ∧
    get_tasks none ([] ++ FileContent.invalid :: []) = get_tasks none ([] ++ []) ∧
    get_messages ([] ++ FileContent.invalid :: []) = get_messages ([] ++ []) :=
  C1_malformed_degrades_to_absence [] [] FileContent.invalid rfl

/-!
Registry task state (`agent_registry.py`).  The tasks directory is
modelled as an association list from task id (the file
`tasks/task_<id>.json`) to the stored task; writing a task file
replaces the binding (or appends a new one), deleting removes it.
Timestamps (`_now_iso()`) are threaded in as explicit string arguments;
`datetime.fromisoformat` is threaded in as an explicit parser.
-/

/-- The tasks directory: file name key (the task id) to stored task. -/
abbrev Store := List (String × AgentTask)

/-- Read + decode `tasks/task_<id>.json` (`AgentRegistry.get_task`);
registry-written documents round-trip, so the stored task comes back. -/
def getTaskStore (s : Store) (id : String) : Option AgentTask :=
  s.lookup id

/-- Atomic write of `tasks/task_<id>.json`: replace the existing file
or create it. -/
def setTaskStore : Store → String → AgentTask → Store
  | [], id, t => [(id, t)]
  | (k, v) :: rest, id, t =>
    if k = id then (id, t) :: rest else (k, v) :: setTaskStore rest id t

/-- `AgentTask.start`. -/
def AgentTask.start (t : AgentTask) (now : String) : AgentTask :=
  { t with status := TaskStatus.running, started_at := some now }

/-- `AgentTask.complete`. -/
def AgentTask.complete (t : AgentTask) (result : Json) (now : String) : AgentTask :=
  { t with status := TaskStatus.completed, result := result,
           completed_at := some now }

/-- `AgentTask.fail`. -/
def AgentTask.fail (t : AgentTask) (error : String) (now : String) : AgentTask :=
  { t with status := TaskStatus.failed, error := some error,
           completed_at := some now }

/-- `AgentTask.cancel`. -/
def AgentTask.cancel (t : AgentTask) (now : String) : AgentTask :=
  { t with status := TaskStatus.cancelled, completed_at := some now }

/-- Python `x or d` for `x : str | None`: `None` and `""` are falsy. -/
def pyOrStr : Option String → String → String
  | none, d => d
  | some s, d => if s = "" then d else s

/-- `result is None`. -/
def Json.isNull : Json → Bool
  | Json.null => true
  | _ => false

/-- The in-memory mutation performed by `AgentRegistry.update_task`
once the task is loaded: the status-dispatch chain (`RUNNING` →
`start`, `COMPLETED` → `complete(result)`, `FAILED` →
`fail(error or "Unknown error")`, `CANCELLED` → `cancel`, any other
truthy status assigned verbatim, `None` → no dispatch), then the
side-channel `result` overwrite when `result is not None` and the
status argument is not `COMPLETED`. -/
def applyUpdate (t : AgentTask) (status : Option TaskStatus) (result : Json)
    (error : Option String) (now : String) : AgentTask :=
  let t1 :=
    match status with
    | some TaskStatus.running => t.start now
    | some TaskStatus.completed => t.complete result now
    | some TaskStatus.failed => t.fail (pyOrStr error "Unknown error") now
    | some TaskStatus.cancelled => t.cancel now
    | some TaskStatus.pending => { t with status := TaskStatus.pending }
    | none => t
  if result.isNull = false ∧ status ≠ some TaskStatus.completed then
    { t1 with result := result }
  else t1

/-- `AgentRegistry.update_task`: load the task (soft-fail to `None`),
apply the update, persist, return the updated task. -/
def update_task (s : Store) (id : String) (status : Option TaskStatus)
    (result : Json) (error : Option String) (now : String) :
    Option AgentTask × Store :=
  match getTaskStore s id with
  | none => (none, s)
  | some t =>
    let t1 := applyUpdate t status result error now
    (some t1, setTaskStore s id t1)

/-- `AgentRegistry.cancel_task`: `False` when absent or already
terminal, otherwise cancel, persist and return `True`. -/
def cancel_task (s : Store) (id : String) (now : String) : Bool × Store :=
  match getTaskStore s id with
  | none => (false, s)
  | some t =>
    if t.status.isTerminal then (false, s)
    else (true, setTaskStore s id (t.cancel now))

/-- The freshly constructed `AgentTask(...)` of
`AgentRegistry.create_task` (dataclass defaults: `PENDING`, null
result/error/timestamps, `context or {}`). -/
def newTask (id now description : String) (context : Option Json)
    (assigned_to : Option String) : AgentTask :=
  { id := id, description := description,
    context := context.getD (Json.obj []),
    status := TaskStatus.pending, result := Json.null, error := none,
    created_at := now, started_at := none, completed_at := none,
    assigned_to := assigned_to }

/-- `AgentRegistry.create_task`: build the task, persist it under its
id, return it. -/
def create_task (s : Store) (id now description : String)
    (context : Option Json) (assigned_to : Option String) :
    AgentTask × Store :=
  let t := newTask id now description context assigned_to
  (t, setTaskStore s t.id t)

/-- Stores reachable from an empty tasks directory by any sequence of
`create_task` / `update_task` / `cancel_task`. -/
inductive Reachable : Store → Prop where
  | empty : Reachable []
  | create : ∀ s id now desc ctx asg, Reachable s →
      Reachable (create_task s id now desc ctx asg).2
  | update : ∀ s id status result error now, Reachable s →
      Reachable (update_task s id status result error now).2
  | cancel : ∀ s id now, Reachable s →
      Reachable (cancel_task s id now).2

theorem getTaskStore_nil (id : String) : getTaskStore [] id = none := rfl

theorem getTaskStore_cons (k : String) (v : AgentTask) (rest : Store) (id : String) :
    getTaskStore ((k, v) :: rest) id =
      if id = k then some v else getTaskStore rest id := by
  unfold getTaskStore
  rw [List.lookup]
  by_cases h : id = k
  · simp [h]
  · simp [beq_false_of_ne h, h]

theorem lookup_mem_store {s : Store} {id : String} {t : AgentTask}
    (h : getTaskStore s id = some t) : (id, t) ∈ s := by
  induction s with
  | nil => simp [getTaskStore, List.lookup] at h
  | cons p rest ih =>
    obtain ⟨k, v⟩ := p
    rw [getTaskStore_cons] at h
    by_cases hk : id = k
    · rw [if_pos hk] at h
      cases h
      subst hk
      exact List.mem_cons_self _ _
    · rw [if_neg hk] at h
      exact List.mem_cons_of_mem _ (ih h)

theorem mem_setTaskStore {s : Store} {id : String} {t : AgentTask}
    {p : String × AgentTask} (hp : p ∈ setTaskStore s id t) :
    p = (id, t) ∨ p ∈ s := by
  induction s with
  | nil =>
    simp [setTaskStore] at hp
    exact Or.inl hp
  | cons q rest ih =>
    obtain ⟨k, v⟩ := q
    rw [setTaskStore] at hp
    by_cases hk : k = id
    · rw [if_pos hk] at hp
      rcases List.mem_cons.mp hp with h | h
      · exact Or.inl h
      · exact Or.inr (List.mem_cons_of_mem _ h)
    · rw [if_neg hk] at hp
      rcases List.mem_cons.mp hp with h | h
      · exact Or.inr (h ▸ List.mem_cons_self _ _)
      · rcases ih h with h' | h'
        · exact Or.inl h'
        · exact Or.inr (List.mem_cons_of_mem _ h')

theorem getTaskStore_set_self (s : Store) (id : String) (t : AgentTask) :
    getTaskStore (setTaskStore s id t) id = some t := by
  induction s with
  | nil => simp [setTaskStore, getTaskStore_cons, getTaskStore_nil]
  | cons q rest ih =>
    obtain ⟨k, v⟩ := q
    rw [setTaskStore]
    by_cases hk : k = id
    · rw [if_pos hk, getTaskStore_cons, if_pos rfl]
    · rw [if_neg hk, getTaskStore_cons, if_neg (fun h => hk h.symm)]
      exact ih

theorem getTaskStore_set_ne (s : Store) (id id' : String) (t : AgentTask)
    (h : id' ≠ id) :
    getTaskStore (setTaskStore s id t) id' = getTaskStore s id' := by
  induction s with
  | nil => simp [setTaskStore, getTaskStore_cons, getTaskStore_nil, h]
  | cons q rest ih =>
    obtain ⟨k, v⟩ := q
    rw [setTaskStore]
    by_cases hk : k = id
    · rw [if_pos hk, getTaskStore_cons, if_neg (hk ▸ h), getTaskStore_cons,
        if_neg (fun hh => h (hh.trans hk))]
    · rw [if_neg hk, getTaskStore_cons, getTaskStore_cons]
      by_cases hik : id' = k
      · rw [if_pos hik, if_pos hik]
      · rw [if_neg hik, if_neg hik]
        exact ih

theorem setTaskStore_self {s : Store} {id : String} {t : AgentTask}
    (h : getTaskStore s id = some t) : setTaskStore s id t = s := by
  induction s with
  | nil => simp [getTaskStore_nil] at h
  | cons q rest ih =>
    obtain ⟨k, v⟩ := q
    rw [getTaskStore_cons] at h
    rw [setTaskStore]
    by_cases hk : k = id
    · rw [if_pos hk]
      rw [if_pos hk.symm] at h
      cases h
      rw [hk]
    · rw [if_neg hk]
      rw [if_neg (fun hh => hk hh.symm)] at h
      rw [ih h]

theorem applyUpdate_terminal_completed (t : AgentTask) (status : Option TaskStatus)
    (result : Json) (error : Option String) (now : String)
    (hinv : t.status.isTerminal = true → t.completed_at ≠ none)
    (hterm : (applyUpdate t status result error now).status.isTerminal = true) :
    (applyUpdate t status result error now).completed_at ≠ none := by
  cases status with
  | none =>
    simp only [applyUpdate] at hterm ⊢
    by_cases hc : Json.isNull result = false ∧
        (none : Option TaskStatus) ≠ some TaskStatus.completed
    · rw [if_pos hc] at hterm ⊢
      exact hinv hterm
    · rw [if_neg hc] at hterm ⊢
      exact hinv hterm
  | some st =>
    cases st <;>
      simp_all [applyUpdate, AgentTask.start, AgentTask.complete, AgentTask.fail,
        AgentTask.cancel, TaskStatus.isTerminal,
        apply_ite AgentTask.completed_at, apply_ite AgentTask.status]

theorem reachable_terminal_completed {s : Store} (hs : Reachable s) :
    ∀ p : String × AgentTask, p ∈ s → p.2.status.isTerminal = true →
      p.2.completed_at ≠ none := by
  induction hs with
  | empty =>
    intro p hp
    simp at hp
  | create s id now desc ctx asg hr ih =>
    intro p hp hterm
    rcases mem_setTaskStore hp with h | h
    · subst h
      simp [newTask, TaskStatus.isTerminal] at hterm
    · exact ih p h hterm
  | update s id status result error now hr ih =>
    intro p hp hterm
    cases hlt : getTaskStore s id with
    | none =>
      simp only [update_task, hlt] at hp
      exact ih p hp hterm
    | some t =>
      simp only [update_task, hlt] at hp
      rcases mem_setTaskStore hp with h | h
      · subst h
        exact applyUpdate_terminal_completed t status result error now
          (ih (id, t) (lookup_mem_store hlt)) hterm
      · exact ih p h hterm
  | cancel s id now hr ih =>
    intro p hp hterm
    cases hlt : getTaskStore s id with
    | none =>
      simp only [cancel_task, hlt] at hp
      exact ih p hp hterm
    | some t =>
      by_cases hT : t.status.isTerminal = true
      · simp only [cancel_task, hlt, hT, if_pos] at hp
        exact ih p hp hterm
      · simp only [cancel_task, hlt, if_neg hT] at hp
        rcases mem_setTaskStore hp with h | h
        · subst h
          simp [AgentTask.cancel]
        · exact ih p h hterm

/-- C3 (counterexample): the "completed_at non-null iff status terminal"
invariant fails on a reachable store: create a task, complete it, then
`update_task(..., RUNNING)` — the stored task is RUNNING yet keeps its
non-null `completed_at`, because `start()` never clears it. -/
theorem C3_counterexample :
    ∃ t : AgentTask,
      getTaskStore (update_task (update_task
          (create_task [] "a" "t0" "d" none none).2
          "a" (some TaskStatus.completed) Json.null none "t1").2
          "a" (some TaskStatus.running) Json.null none "t2").2 "a" = some t ∧
      Reachable (update_task (update_task
          (create_task [] "a" "t0" "d" none none).2
          "a" (some TaskStatus.completed) Json.null none "t1").2
          "a" (some TaskStatus.running) Json.null none "t2").2 ∧
      t.status = TaskStatus.running ∧ t.completed_at = some "t1" := by
  refine ⟨applyUpdate (applyUpdate (newTask "a" "t0" "d" none none)
      (some TaskStatus.completed) Json.null none "t1")
      (some TaskStatus.running) Json.null none "t2", rfl, ?_, rfl, rfl⟩
  exact Reachable.update _ _ _ _ _ _ (Reachable.update _ _ _ _ _ _
    (Reachable.create _ _ _ _ _ _ Reachable.empty))

/-- C3 (amended): for every task reachable from `create_task` by any
sequence of registry operations, a terminal status (COMPLETED, FAILED
or CANCELLED) implies a non-null `completed_at`; the converse direction
of the claimed equivalence fails (see the counterexample) because
`update_task` may move a terminal task back to RUNNING or PENDING
without clearing `completed_at`. -/
theorem C3_terminal_sets_completed {s : Store} (hs : Reachable s)
    (id : String) (t : AgentTask) (h : getTaskStore s id = some t)
    (ht : t.status.isTerminal = true) : t.completed_at ≠ none :=
  reachable_terminal_completed hs (id, t) (lookup_mem_store h) ht

/-- C3 witness: a concrete created-then-completed task has non-null
`completed_at`. -/
theorem C3_witness :
    (applyUpdate (newTask "a" "t0" "d" none none) (some TaskStatus.completed)
        Json.null none "t1").completed_at ≠ none :=
  C3_terminal_sets_completed
    (Reachable.update (create_task [] "a" "t0" "d" none none).2 "a"
      (some TaskStatus.completed) Json.null none "t1"
      (Reachable.create [] "a" "t0" "d" none none Reachable.empty))
    "a" _ rfl rfl

/-- C4: `update_task` behaviour — absent id returns the absent value
and writes nothing; RUNNING sets `started_at`; COMPLETED sets `result`
and `completed_at`; FAILED sets `error` (generic default when the
argument is absent) and `completed_at`; CANCELLED sets `completed_at`;
any other explicit status (PENDING) is stored verbatim with no side
effect; a non-null `result` with a status argument other than COMPLETED
overwrites the `result` field; the updated task is persisted under its
id and returned. -/
theorem C4_update_task_spec (s : Store) (id : String) (status : Option TaskStatus)
    (result : Json) (error : Option String) (now : String) :
    (getTaskStore s id = none → update_task s id status result error now = (none, s)) ∧
    (∀ t, getTaskStore s id = some t →
      update_task s id status result error now =
        (some (applyUpdate t status result error now),
         setTaskStore s id (applyUpdate t status result error now)) ∧
      (status = some TaskStatus.running →
        (applyUpdate t status result error now).status = TaskStatus.running ∧
        (applyUpdate t status result error now).started_at = some now) ∧
      (status = some TaskStatus.completed →
        (applyUpdate t status result error now).status = TaskStatus.completed ∧
        (applyUpdate t status result error now).result = result ∧
        (applyUpdate t status result error now).completed_at = some now) ∧
      (status = some TaskStatus.failed →
        (applyUpdate t status result error now).status = TaskStatus.failed ∧
        (applyUpdate t status result error now).completed_at = some now ∧
        (error = none →
          (applyUpdate t status result error now).error = some "Unknown error")) ∧
      (status = some TaskStatus.cancelled →
        (applyUpdate t status result error now).status = TaskStatus.cancelled ∧
        (applyUpdate t status result error now).completed_at = some now) ∧
      (status = some TaskStatus.pending → result.isNull = true →
        applyUpdate t status result error now =
          { t with status := TaskStatus.pending }) ∧
      (result.isNull = false → status ≠ some TaskStatus.completed →
        (applyUpdate t status result error now).result = result)) := by
  constructor
  · intro h
    simp [update_task, h]
  · intro t ht
    refine ⟨by simp [update_task, ht], ?_, ?_, ?_, ?_, ?_, ?_⟩
    · rintro rfl
      simp [applyUpdate, AgentTask.start,
        apply_ite AgentTask.status, apply_ite AgentTask.started_at]
    · rintro rfl
      simp [applyUpdate, AgentTask.complete]
    · rintro rfl
      refine ⟨?_, ?_, ?_⟩
      · simp [applyUpdate, AgentTask.fail, apply_ite AgentTask.status]
      · simp [applyUpdate, AgentTask.fail, apply_ite AgentTask.completed_at]
      · rintro rfl
        simp [applyUpdate, AgentTask.fail, pyOrStr, apply_ite AgentTask.error]
    · rintro rfl
      simp [applyUpdate, AgentTask.cancel,
        apply_ite AgentTask.status, apply_ite AgentTask.completed_at]
    · rintro rfl hnull
      simp [applyUpdate, hnull]
    · intro hnull hne
      simp [applyUpdate, hnull, hne, apply_ite AgentTask.result]

/-- C4 witness: completing a concrete stored task persists the result
and completion timestamp and returns the updated task. -/
theorem C4_witness :
    update_task [("a", newTask "a" "t0" "d" none none)] "a"
        (some TaskStatus.completed) (Json.str "r") none "t1" =
      (some (applyUpdate (newTask "a" "t0" "d" none none)
          (some TaskStatus.completed) (Json.str "r") none "t1"),
       setTaskStore [("a", newTask "a" "t0" "d" none none)] "a"
         (applyUpdate (newTask "a" "t0" "d" none none)
           (some TaskStatus.completed) (Json.str "r") none "t1")) ∧
    (applyUpdate (newTask "a" "t0" "d" none none)
        (some TaskStatus.completed) (Json.str "r") none "t1").result =
      Json.str "r" ∧
    (applyUpdate (newTask "a" "t0" "d" none none)
        (some TaskStatus.completed) (Json.str "r") none "t1").completed_at =
      some "t1" :=
  have h := (C4_update_task_spec [("a", newTask "a" "t0" "d" none none)] "a"
      (some TaskStatus.completed) (Json.str "r") none "t1").2
      (newTask "a" "t0" "d" none none) rfl
  ⟨h.1, (h.2.2.1 rfl).2.1, (h.2.2.1 rfl).2.2⟩

/-- C5: `cancel_task` returns false and leaves the store unchanged when
the id is absent or the task is already terminal; otherwise it stores
the CANCELLED task (with `completed_at` set), returns true, and a
second `cancel_task` on the same id then returns false and changes
nothing. -/
theorem C5_cancel_task_spec (s : Store) (id : String) (now now2 : String) :
    (getTaskStore s id = none → cancel_task s id now = (false, s)) ∧
    (∀ t, getTaskStore s id = some t → t.status.isTerminal = true →
      cancel_task s id now = (false, s)) ∧
    (∀ t, getTaskStore s id = some t → t.status.isTerminal = false →
      cancel_task s id now = (true, setTaskStore s id (t.cancel now)) ∧
      (t.cancel now).status = TaskStatus.cancelled ∧
      (t.cancel now).completed_at = some now ∧
      getTaskStore (setTaskStore s id (t.cancel now)) id = some (t.cancel now) ∧
      cancel_task (setTaskStore s id (t.cancel now)) id now2 =
        (false, setTaskStore s id (t.cancel now))) := by
  refine ⟨?_, ?_, ?_⟩
  · intro h
    simp [cancel_task, h]
  · intro t ht hterm
    simp [cancel_task, ht, hterm]
  · intro t ht hterm
    refine ⟨by simp [cancel_task, ht, hterm], rfl, rfl,
      getTaskStore_set_self s id (t.cancel now), ?_⟩
    simp [cancel_task, getTaskStore_set_self, AgentTask.cancel, TaskStatus.isTerminal]

/-- C5 witness: cancelling a concrete pending task succeeds; a second
cancel on the same id returns false and leaves the store unchanged. -/
theorem C5_witness :
    cancel_task [("a", newTask "a" "t0" "d" none none)] "a" "t1" =
      (true, setTaskStore [("a", newTask "a" "t0" "d" none none)] "a"
        ((newTask "a" "t0" "d" none none).cancel "t1")) ∧
    cancel_task (setTaskStore [("a", newTask "a" "t0" "d" none none)] "a"
        ((newTask "a" "t0" "d" none none).cancel "t1")) "a" "t2" =
      (false, setTaskStore [("a", newTask "a" "t0" "d" none none)] "a"
        ((newTask "a" "t0" "d" none none).cancel "t1")) :=
  have h := (C5_cancel_task_spec [("a", newTask "a" "t0" "d" none none)]
      "a" "t1" "t2").2.2 (newTask "a" "t0" "d" none none) rfl rfl
  ⟨h.1, h.2.2.2.2⟩

/-- C9: `update_task` with no status, no result and no error leaves the
stored task unchanged: the rewritten document equals the one previously
on disk (the store is unchanged) and the returned task is the stored
one. -/
theorem C9_update_task_noop (s : Store) (id : String) (now : String)
    (t : AgentTask) (h : getTaskStore s id = some t) :
    update_task s id none Json.null none now = (some t, s) := by
  have ha : applyUpdate t none Json.null none now = t := by
    simp [applyUpdate, Json.isNull]
  simp [update_task, h, ha, setTaskStore_self h]

/-- C9 witness: a concrete all-defaults `update_task` call returns the
stored task and leaves the store identical. -/
theorem C9_witness :
    update_task [("a", newTask "a" "t0" "d" none none)] "a" none Json.null
        none "t1" =
      (some (newTask "a" "t0" "d" none none),
       [("a", newTask "a" "t0" "d" none none)]) :=
  C9_update_task_noop _ "a" "t1" _ rfl

/-!
Cleanup (`AgentRegistry.cleanup_completed_tasks`).  `datetime.now() -
timedelta(hours=max_age_hours)` is an abstract cutoff instant, and
`datetime.fromisoformat` an abstract parser `String → Option Int`
(`none` models the `ValueError` the loop catches); instants compare as
integers. -/

/-- `AgentRegistry.delete_task` (via `FileComm.delete_file`): returns
whether the file existed and removes it. -/
def delete_task (s : Store) (id : String) : Bool × Store :=
  ((getTaskStore s id).isSome, s.filter (fun p => p.1 != id))

/-- Whether one loop iteration of `cleanup_completed_tasks` deletes the
task: terminal status, truthy `completed_at`, parse succeeds (else the
`ValueError` is caught and the task skipped), parsed instant before the
cutoff. -/
def shouldDelete (parse : String → Option Int) (cutoff : Int)
    (t : AgentTask) : Bool :=
  t.status.isTerminal &&
    match t.completed_at with
    | none => false
    | some cs =>
      if cs = "" then false
      else
        match parse cs with
        | none => false
        | some ct => decide (ct < cutoff)

/-- The `for task in tasks:` loop of `cleanup_completed_tasks`,
threading the store and the `deleted` counter. -/
def cleanup_loop (parse : String → Option Int) (cutoff : Int) :
    List AgentTask → Store → Nat → Nat × Store
  | [], s, deleted => (deleted, s)
  | t :: rest, s, deleted =>
    if shouldDelete parse cutoff t then
      let r := delete_task s t.id
      cleanup_loop parse cutoff rest r.2 (if r.1 then deleted + 1 else deleted)
    else
      cleanup_loop parse cutoff rest s deleted

/-- `AgentRegistry.cleanup_completed_tasks`: scan all tasks
(`get_tasks()` over the store), run the deletion loop, return the
count. -/
def cleanup_completed_tasks (parse : String → Option Int) (cutoff : Int)
    (s : Store) : Nat × Store :=
  cleanup_loop parse cutoff (s.map Prod.snd) s 0

theorem lookup_of_mem_nodup {s : Store} (h : (s.map Prod.fst).Nodup)
    {k : String} {u : AgentTask} (hm : (k, u) ∈ s) :
    getTaskStore s k = some u := by
  induction s with
  | nil => simp at hm
  | cons p rest ih =>
    obtain ⟨k', v⟩ := p
    rw [List.map_cons, List.nodup_cons] at h
    rcases List.mem_cons.mp hm with he | hm'
    · injection he with h1 h2
      subst h1
      subst h2
      rw [getTaskStore_cons, if_pos rfl]
    · have hne : k ≠ k' := by
        intro hk
        subst hk
        exact h.1 (List.mem_map.mpr ⟨(k, u), hm', rfl⟩)
      rw [getTaskStore_cons, if_neg hne]
      exact ih h.2 hm'

theorem mem_unique_key {s : Store} (h : (s.map Prod.fst).Nodup)
    {p q : String × AgentTask} (hp : p ∈ s) (hq : q ∈ s) (hk : p.1 = q.1) :
    p = q := by
  have h1 : getTaskStore s p.1 = some p.2 := lookup_of_mem_nodup h hp
  have h2 : getTaskStore s q.1 = some q.2 := lookup_of_mem_nodup h hq
  rw [hk, h2] at h1
  injection h1 with h3
  exact Prod.ext hk h3.symm

theorem getTaskStore_filter_ne (s : Store) (id id' : String) (h : id' ≠ id) :
    getTaskStore (s.filter (fun p => p.1 != id)) id' = getTaskStore s id' := by
  induction s with
  | nil => rfl
  | cons p rest ih =>
    obtain ⟨k, v⟩ := p
    rw [List.filter_cons]
    by_cases hk : k = id
    · simp only [hk, bne_self_eq_false, if_neg Bool.false_ne_true]
      rw [ih, getTaskStore_cons, if_neg (hk ▸ h)]
    · simp only [bne_iff_ne, ne_eq, hk, not_false_eq_true, if_pos]
      rw [getTaskStore_cons, getTaskStore_cons]
      by_cases hik : id' = k
      · rw [if_pos hik, if_pos hik]
      · rw [if_neg hik, if_neg hik]
        exact ih

theorem cleanup_loop_spec (parse : String → Option Int) (cutoff : Int) :
    ∀ (ts : List AgentTask) (s : Store) (n : Nat),
      (∀ t ∈ ts, getTaskStore s t.id = some t) →
      (ts.map AgentTask.id).Nodup →
      cleanup_loop parse cutoff ts s n =
        (n + ts.countP (shouldDelete parse cutoff),
         s.filter (fun p =>
           !((ts.filter (shouldDelete parse cutoff)).map AgentTask.id).contains p.1)) := by
  intro ts
  induction ts with
  | nil =>
    intro s n h1 h2
    simp [cleanup_loop]
  | cons t rest ih =>
    intro s n h1 h2
    rw [List.map_cons, List.nodup_cons] at h2
    have hts : getTaskStore s t.id = some t := h1 t (List.mem_cons_self t rest)
    by_cases hd : shouldDelete parse cutoff t = true
    · have hrest1 : ∀ u ∈ rest,
          getTaskStore (s.filter (fun p => p.1 != t.id)) u.id = some u := by
        intro u hu
        have hne : u.id ≠ t.id := by
          intro he
          exact h2.1 (he ▸ List.mem_map.mpr ⟨u, hu, rfl⟩)
        rw [getTaskStore_filter_ne _ _ _ hne]
        exact h1 u (List.mem_cons_of_mem _ hu)
      simp only [cleanup_loop, if_pos hd, delete_task, hts, Option.isSome_some,
        if_pos]
      rw [ih _ (n + 1) hrest1 h2.2]
      apply Prod.ext
      · simp [List.countP_cons, hd]
        omega
      · rw [List.filter_filter, List.filter_cons_of_pos hd, List.map_cons]
        apply List.filter_congr
        intro p hp
        rw [List.contains_cons]
        simp [Bool.not_or, Bool.and_comm, bne]
    · have h1' : ∀ u ∈ rest, getTaskStore s u.id = some u :=
        fun u hu => h1 u (List.mem_cons_of_mem _ hu)
      simp only [cleanup_loop, if_neg hd]
      rw [ih _ n h1' h2.2]
      rw [List.countP_cons, List.filter_cons_of_neg (by simpa using hd)]
      simp [hd]


/-- A concrete tasks directory for exercising cleanup: an old completed
task, a fresh completed task, a failed task with unparsable timestamp
and a pending task. -/
def cleanupDemoStore : Store :=
  [ ("a", { id := "a", description := "", context := Json.null,
            status := TaskStatus.completed, result := Json.null,
            error := none, created_at := "0", started_at := none,
            completed_at := some "50", assigned_to := none }),
    ("b", { id := "b", description := "", context := Json.null,
            status := TaskStatus.completed, result := Json.null,
            error := none, created_at := "0", started_at := none,
            completed_at := some "150", assigned_to := none }),
    ("c", { id := "c", description := "", context := Json.null,
            status := TaskStatus.failed, result := Json.null,
            error := none, created_at := "0", started_at := none,
            completed_at := some "zzz", assigned_to := none }),
    ("d", { id := "d", description := "", context := Json.null,
            status := TaskStatus.pending, result := Json.null,
            error := none, created_at := "0", started_at := none,
            completed_at := none, assigned_to := none }) ]

/-- C6: `cleanup_completed_tasks` deletes exactly the stored tasks
whose status is terminal and whose `completed_at` parses to an instant
before the cutoff (now − max_age); it retains every non-terminal task
and every terminal task whose `completed_at` is missing, empty or
unparsable; and it returns the number of tasks deleted. -/
theorem C6_cleanup_spec (parse : String → Option Int) (cutoff : Int) (s : Store)
    (hkeys : (s.map Prod.fst).Nodup)
    (hid : ∀ p ∈ s, AgentTask.id p.2 = p.1) :
    cleanup_completed_tasks parse cutoff s =
      ((s.map Prod.snd).countP (shouldDelete parse cutoff),
       s.filter (fun p => !shouldDelete parse cutoff p.2)) ∧
    ∀ t : AgentTask, shouldDelete parse cutoff t = true ↔
      (t.status.isTerminal = true ∧ ∃ cs, t.completed_at = some cs ∧ cs ≠ "" ∧
        ∃ ct, parse cs = some ct ∧ ct < cutoff) := by
  constructor
  · have inv1 : ∀ t ∈ s.map Prod.snd, getTaskStore s t.id = some t := by
      intro t ht
      obtain ⟨p, hp, rfl⟩ := List.mem_map.mp ht
      rw [hid p hp]
      exact lookup_of_mem_nodup hkeys hp
    have inv2 : ((s.map Prod.snd).map AgentTask.id).Nodup := by
      rw [List.map_map]
      have hmc : s.map (AgentTask.id ∘ Prod.snd) = s.map Prod.fst :=
        List.map_congr_left hid
      rw [hmc]
      exact hkeys
    unfold cleanup_completed_tasks
    rw [cleanup_loop_spec parse cutoff _ s 0 inv1 inv2]
    apply Prod.ext
    · simp
    · apply List.filter_congr
      intro p hp
      congr 1
      cases hsd : shouldDelete parse cutoff p.2 with
      | true =>
        have hmem : p.1 ∈
            ((s.map Prod.snd).filter (shouldDelete parse cutoff)).map AgentTask.id := by
          refine List.mem_map.mpr ⟨p.2, ?_, hid p hp⟩
          exact List.mem_filter.mpr ⟨List.mem_map.mpr ⟨p, hp, rfl⟩, hsd⟩
        simpa using hmem
      | false =>
        rw [Bool.eq_false_iff]
        intro hcon
        have hmem : p.1 ∈
            ((s.map Prod.snd).filter (shouldDelete parse cutoff)).map AgentTask.id := by
          simpa using hcon
        obtain ⟨u, hu, hueq⟩ := List.mem_map.mp hmem
        obtain ⟨humem, husd⟩ := List.mem_filter.mp hu
        obtain ⟨q, hq, rfl⟩ := List.mem_map.mp humem
        have hqp : q = p := mem_unique_key hkeys hq hp ((hid q hq).symm.trans hueq)
        rw [hqp] at husd
        rw [husd] at hsd
        cases hsd
  · intro t
    constructor
    · intro h
      rw [shouldDelete, Bool.and_eq_true] at h
      obtain ⟨hT, hm⟩ := h
      refine ⟨hT, ?_⟩
      cases hc : t.completed_at with
      | none =>
        rw [hc] at hm
        simp at hm
      | some cs =>
        rw [hc] at hm
        by_cases he : cs = ""
        · simp [he] at hm
        · cases hp : parse cs with
          | none => simp [he, hp] at hm
          | some ct =>
            simp [he, hp] at hm
            exact ⟨cs, rfl, he, ct, hp, hm⟩
    · rintro ⟨ht, cs, hcs, hne, ct, hp, hlt⟩
      rw [shouldDelete, hcs, ht]
      simp [hne, hp, hlt]

/-- C6 witness: on the concrete demo store, cleanup at cutoff 100 with
an integer-parsing clock deletes exactly the matching tasks and returns
their count. -/
theorem C6_witness :
    cleanup_completed_tasks String.toInt? 100 cleanupDemoStore =
      ((cleanupDemoStore.map Prod.snd).countP (shouldDelete String.toInt? 100),
       cleanupDemoStore.filter (fun p => !shouldDelete String.toInt? 100 p.2)) :=
  (C6_cleanup_spec String.toInt? 100 cleanupDemoStore (by decide) (by decide)).1

/-!
Delete primitive (`FileComm.delete_file` / `delete_file_sync`).  The
operating-system unlink either succeeds or raises an `OSError`
(file missing, permission denied, ...). -/

/-- Outcome of the underlying `os.remove` / `Path.unlink` call. -/
inductive UnlinkOutcome where
  | ok | fileNotFound | permissionDenied
deriving DecidableEq

/-- `OSError` kinds relevant to unlink (`FileNotFoundError` and
`PermissionError` are both subclasses of `OSError`). -/
inductive OSErr where
  | fileNotFound | permissionDenied
deriving DecidableEq

/-- The raw unlink call: succeeds, or raises an `OSError`. -/
def osUnlink : UnlinkOutcome → Except OSErr Unit
  | UnlinkOutcome.ok => Except.ok ()
  | UnlinkOutcome.fileNotFound => Except.error OSErr.fileNotFound
  | UnlinkOutcome.permissionDenied => Except.error OSErr.permissionDenied

/-- `FileComm.delete_file`: `try: unlink(); return True; except
OSError: return False` — every `OSError` is absorbed into `False`. -/
def delete_file (o : UnlinkOutcome) : Except OSErr Bool :=
  match osUnlink o with
  | Except.ok _ => Except.ok true
  | Except.error _ => Except.ok false

/-- The delete primitive as the claim describes it, for comparison:
absence yields `false`, but a genuine I/O failure such as permission
denied propagates as a hard error to the caller. -/
def claimedDeleteFile (o : UnlinkOutcome) : Except OSErr Bool :=
  match osUnlink o with
  | Except.ok _ => Except.ok true
  | Except.error OSErr.fileNotFound => Except.ok false
  | Except.error e => Except.error e

/-- C7 (counterexample): on a permission-denied unlink, `delete_file`
returns `False` instead of propagating the error, diverging from the
claimed behaviour at this concrete input. -/
theorem C7_counterexample :
    delete_file UnlinkOutcome.permissionDenied = Except.ok false ∧
    delete_file UnlinkOutcome.permissionDenied ≠
      claimedDeleteFile UnlinkOutcome.permissionDenied :=
  ⟨rfl, fun h => Except.noConfusion h⟩

/-- C7 (amended): the delete primitive returns whether a file was
actually removed and never raises: absence yields `false`, and a
storage I/O failure during delete (e.g. permission denied) is likewise
absorbed into `false` rather than propagating (only the write
primitive's failures propagate). -/
theorem C7_delete_absorbs_oserror (o : UnlinkOutcome) :
    delete_file o = Except.ok (decide (o = UnlinkOutcome.ok)) := by
  cases o <;> rfl

/-!
Directory watcher (`FileComm.watch_directory`).  One poll tick's view
of the directory is `none` when the directory does not exist (the loop
`continue`s without touching the baseline) or the finite set of
`*.json` file names.  The loop emits, per tick, the newly appeared
file names in sorted order (the callback is invoked once per emitted
name), then records the listing as the new `seen_files` baseline. -/

/-- One poll tick's directory view. -/
abbrev DirSnap := Option (Finset String)

/-- The initial `seen_files` baseline: the directory contents when the
directory exists at watcher start, the empty set otherwise. -/
def watchInit (dir0 : Option (Finset String)) : Finset String :=
  dir0.getD ∅

/-- The poll loop of `watch_directory`, as per-tick emission lists. -/
def watchRun (seen : Finset String) : List DirSnap → List (List String)
  | [] => []
  | none :: rest => [] :: watchRun seen rest
  | some cur :: rest => (cur \ seen).sort (· ≤ ·) :: watchRun cur rest

theorem count_sort_sdiff (c s : Finset String) (f : String) :
    ((c \ s).sort (· ≤ ·)).count f = if f ∈ c \ s then 1 else 0 := by
  by_cases h : f ∈ c \ s
  · rw [if_pos h]
    exact List.count_eq_one_of_mem (Finset.sort_nodup _ _)
      (Finset.mem_sort _ |>.mpr h)
  · rw [if_neg h]
    exact List.count_eq_zero_of_not_mem (fun hc => h (Finset.mem_sort _ |>.mp hc))

theorem watch_count_zero (f : String) :
    ∀ (snaps : List DirSnap) (seen : Finset String),
      (∀ c : Finset String, some c ∈ snaps → f ∉ c) →
      ((watchRun seen snaps).flatten.count f) = 0 := by
  intro snaps
  induction snaps with
  | nil => intro seen h; rfl
  | cons d rest ih =>
    intro seen h
    cases d with
    | none =>
      simp only [watchRun, List.flatten_cons, List.nil_append]
      exact ih seen (fun c hc => h c (List.mem_cons_of_mem _ hc))
    | some cur =>
      simp only [watchRun, List.flatten_cons, List.count_append]
      rw [count_sort_sdiff, if_neg (fun hm =>
        h cur (List.mem_cons_self _ _) (Finset.mem_sdiff.mp hm).1)]
      rw [ih cur (fun c hc => h c (List.mem_cons_of_mem _ hc))]

theorem watch_count_seen (f : String) :
    ∀ (snaps : List DirSnap) (seen : Finset String),
      f ∈ seen →
      (∀ c : Finset String, some c ∈ snaps → f ∈ c) →
      ((watchRun seen snaps).flatten.count f) = 0 := by
  intro snaps
  induction snaps with
  | nil => intro seen hs h; rfl
  | cons d rest ih =>
    intro seen hs h
    cases d with
    | none =>
      simp only [watchRun, List.flatten_cons, List.nil_append]
      exact ih seen hs (fun c hc => h c (List.mem_cons_of_mem _ hc))
    | some cur =>
      simp only [watchRun, List.flatten_cons, List.count_append]
      rw [count_sort_sdiff, if_neg (fun hm => (Finset.mem_sdiff.mp hm).2 hs),
        Nat.zero_add]
      exact ih cur (h cur (List.mem_cons_self _ _))
        (fun c hc => h c (List.mem_cons_of_mem _ hc))

theorem watch_count_once (f : String) :
    ∀ (pre : List DirSnap) (c : Finset String) (rest : List DirSnap)
      (seen : Finset String),
      f ∉ seen →
      (∀ x : Finset String, some x ∈ pre → f ∉ x) →
      f ∈ c →
      (∀ x : Finset String, some x ∈ rest → f ∈ x) →
      ((watchRun seen (pre ++ some c :: rest)).flatten.count f) = 1 := by
  intro pre
  induction pre with
  | nil =>
    intro c rest seen hseen hpre hc hrest
    simp only [List.nil_append, watchRun, List.flatten_cons, List.count_append]
    rw [count_sort_sdiff, if_pos (Finset.mem_sdiff.mpr ⟨hc, hseen⟩)]
    rw [watch_count_seen f rest c hc hrest]
  | cons d pre ih =>
    intro c rest seen hseen hpre hc hrest
    cases d with
    | none =>
      simp only [List.cons_append, watchRun, List.flatten_cons, List.nil_append]
      exact ih c rest seen hseen
        (fun x hx => hpre x (List.mem_cons_of_mem _ hx)) hc hrest
    | some x =>
      have hfx : f ∉ x := hpre x (List.mem_cons_self _ _)
      simp only [List.cons_append, watchRun, List.flatten_cons,
        List.count_append, List.append_eq]
      rw [count_sort_sdiff, if_neg (fun hm => hfx (Finset.mem_sdiff.mp hm).1),
        Nat.zero_add]
      exact ih c rest x hfx
        (fun y hy => hpre y (List.mem_cons_of_mem _ hy)) hc hrest

theorem watch_sorted :
    ∀ (snaps : List DirSnap) (seen : Finset String),
      ∀ tick ∈ watchRun seen snaps, tick.Sorted (· ≤ ·) := by
  intro snaps
  induction snaps with
  | nil => intro seen tick h; simp [watchRun] at h
  | cons d rest ih =>
    intro seen tick h
    cases d with
    | none =>
      rcases List.mem_cons.mp h with rfl | h'
      · exact List.sorted_nil
      · exact ih seen tick h'
    | some cur =>
      rcases List.mem_cons.mp h with rfl | h'
      · exact Finset.sort_sorted _ _
      · exact ih cur tick h'

/-- C8: in the watcher's poll-step relation, a file that appears in the
watched directory and stays present is delivered to the callback
exactly once (never again on later ticks while it remains present);
within one tick the emitted file names are in sorted order; and a file
that is never present at any poll tick (appearing and vanishing
entirely between two consecutive ticks) is delivered zero times. -/
theorem C8_watch_delivery (s0 : Finset String) (f : String) :
    (∀ snaps : List DirSnap, ∀ tick ∈ watchRun s0 snaps,
        tick.Sorted (· ≤ ·)) ∧
    (∀ (pre rest : List (Finset String)) (c : Finset String),
      f ∉ s0 → (∀ x ∈ pre, f ∉ x) → f ∈ c → (∀ x ∈ rest, f ∈ x) →
      ((watchRun s0 (pre.map some ++ some c :: rest.map some)).flatten.count f)
        = 1) ∧
    (∀ snaps : List (Finset String), (∀ x ∈ snaps, f ∉ x) →
      ((watchRun s0 (snaps.map some)).flatten.count f) = 0) := by
  refine ⟨fun snaps => watch_sorted snaps s0, ?_, ?_⟩
  · intro pre rest c h0 hpre hc hrest
    refine watch_count_once f (pre.map some) c (rest.map some) s0 h0 ?_ hc ?_
    · intro x hx
      obtain ⟨y, hy, he⟩ := List.mem_map.mp hx
      injection he with he
      exact he ▸ hpre y hy
    · intro x hx
      obtain ⟨y, hy, he⟩ := List.mem_map.mp hx
      injection he with he
      exact he ▸ hrest y hy
  · intro snaps h
    refine watch_count_zero f (snaps.map some) s0 ?_
    intro c hc
    obtain ⟨y, hy, he⟩ := List.mem_map.mp hc
    injection he with he
    exact he ▸ h y hy

/-- C8 witness: with an empty baseline, a file appearing in the first
tick and still present in the second is delivered exactly once, and a
file in no tick's listing is delivered zero times. -/
theorem C8_witness :
    ((watchRun ∅ (([] : List (Finset String)).map some ++
        some {"a"} :: ([{"a"}] : List (Finset String)).map some)).flatten.count
      "a") = 1 ∧
    ((watchRun ∅ (([∅] : List (Finset String)).map some)).flatten.count
      "a") = 0 :=
  ⟨(C8_watch_delivery ∅ "a").2.1 [] [{"a"}] {"a"} (by simp) (by simp)
      (by simp) (by simp),
   (C8_watch_delivery ∅ "a").2.2 [∅] (by simp)⟩

/-- C10: when the watched directory does not exist at watcher start,
the baseline `seen_files` is the empty set (whereas a directory that
exists contributes its current contents as the baseline, so those
pre-existing files are never reported); consequently, once the
directory comes into existence, every file it then contains is emitted
as new on that poll tick. -/
theorem C10_watch_baseline :
    watchInit none = ∅ ∧
    (∀ s : Finset String, watchInit (some s) = s) ∧
    ∀ (k : Nat) (c : Finset String) (rest : List DirSnap),
      (watchRun (watchInit none)
          (List.replicate k none ++ some c :: rest))[k]? =
        some (c.sort (· ≤ ·)) := by
  refine ⟨rfl, fun s => rfl, ?_⟩
  intro k c rest
  induction k with
  | zero =>
    simp [watchRun, watchInit]
  | succ k ih =>
    simpa [List.replicate_succ, watchRun] using ih
